import Mathlib

/-!
Shallow embedding of the LC-3 virtual machine in lc3_vm.c.

Machine words are 16-bit unsigned integers, modelled as Nat with an
explicit `% 65536` wherever the C code stores into a `uint16_t` object
(assignment to a register, a memory cell, or passing into a `uint16_t`
parameter truncates modulo 2^16).

The process-global state (the `memory` array, the `reg` array, the
`running` flag) together with the host terminal (pending keyboard bytes,
bytes written to stdout) is bundled into one `Machine` record; each C
function that mutates globals becomes a function from `Machine` to
`Machine` (paired with the returned value where the C function returns
one).  The pending keyboard input is a list of bytes: `check_key` (a
non-blocking select on stdin) is true exactly when the list is nonempty,
and `getchar` pops the head.
-/

/-- Register-file indices: R0..R7 are 0..7, R_PC = 8, R_COND = 9
(the C enum at lines 23..35). -/
def R_R0 : Nat := 0

/-- Register index of R7, the subroutine-return register. -/
def R_R7 : Nat := 7

/-- Register index of the program counter. -/
def R_PC : Nat := 8

/-- Register index of the condition-flags register. -/
def R_COND : Nat := 9

/-- Condition flag: positive. -/
def FL_POS : Nat := 1

/-- Condition flag: zero. -/
def FL_ZRO : Nat := 2

/-- Condition flag: negative. -/
def FL_NEG : Nat := 4

/-- Keyboard status register address. -/
def MR_KBSR : Nat := 0xFE00

/-- Keyboard data register address. -/
def MR_KBDR : Nat := 0xFE02

/-- Number of cells of the C memory array: it is declared
`uint16_t memory[UINT16_MAX]` (line 14), and `UINT16_MAX` is 65535.
The valid indices are therefore 0 .. 65534. -/
def memory_length : Nat := 65535

/-- The whole emulator state: the register file (indices 0..9), the
memory (idealized, per the spec, as a total map on 16-bit addresses),
the pending host keyboard bytes, the bytes written to stdout so far,
and the running flag. -/
structure Machine where
  reg : Nat → Nat
  mem : Nat → Nat
  input : List Nat
  output : List Nat
  running : Bool

/-- Store `v` (truncated to 16 bits, as the C assignment to the
`uint16_t` array element does) into register `r`. -/
def setReg (s : Machine) (r v : Nat) : Machine :=
  { s with reg := fun x => if x = r then v % 65536 else s.reg x }

/-- The C `check_key` (lines 94..104): a zero-timeout select on stdin,
true exactly when the host has at least one pending byte. -/
def check_key (s : Machine) : Bool :=
  !s.input.isEmpty

/-- The host `getchar`: pops the next pending byte.  The C call blocks
until a byte arrives; in `mem_read` it is only reached when `check_key`
already reported a pending byte, so the empty case (modelled as 0 with
no state change) is never exercised there. -/
def getchar (s : Machine) : Nat × Machine :=
  match s.input with
  | [] => (0, s)
  | b :: rest => (b, { s with input := rest })

/-- The C `mem_write` (lines 106..109): `memory[address] = val`, with
both arguments truncated to 16 bits by their `uint16_t` types. -/
def mem_write (s : Machine) (address val : Nat) : Machine :=
  { s with mem := fun x => if x = address % 65536 then val % 65536 else s.mem x }

/-- The C `mem_read` (lines 111..124): if the address is `MR_KBSR`,
first poll the keyboard; when a key is pending set KBSR to `1 <<< 15`
and KBDR to the byte `getchar` returns, else set KBSR to 0.  Then
return the current value of the addressed cell. -/
def mem_read (s : Machine) (address : Nat) : Nat × Machine :=
  let a := address % 65536
  let s1 :=
    if a = MR_KBSR then
      if check_key s then
        let g := getchar s
        mem_write (mem_write g.2 MR_KBSR (1 <<< 15)) MR_KBDR g.1
      else
        mem_write s MR_KBSR 0
    else s
  (s1.mem a, s1)

/-- The C `sign_extend` (lines 126..132): if bit `bit_count - 1` of `x`
is set, or in `0xFFFF << bit_count`; the result is truncated to 16 bits
by the `uint16_t` return type. -/
def sign_extend (x : Nat) (bit_count : Nat) : Nat :=
  let x := x % 65536
  if (x >>> (bit_count - 1)) &&& 0x1 = 1 then (x ||| (0xFFFF <<< bit_count)) % 65536
  else x

/-- The C `update_flags` (lines 134..142): set R_COND to FL_ZRO, FL_NEG
or FL_POS from the value of register `reg_index` (zero test first, then
bit 15). -/
def update_flags (s : Machine) (reg_index : Nat) : Machine :=
  if s.reg reg_index = 0 then setReg s R_COND FL_ZRO
  else if s.reg reg_index >>> 15 ≠ 0 then setReg s R_COND FL_NEG
  else setReg s R_COND FL_POS

/-- The C `op_add` (lines 167..184): register or immediate form of ADD,
then `update_flags` on the destination. -/
def op_add (s : Machine) (instr : Nat) : Machine :=
  let dst_reg := (instr >>> 9) &&& 0x7
  let src_reg1 := (instr >>> 6) &&& 0x7
  let s1 :=
    if (instr >>> 5) &&& 0x1 = 1 then
      setReg s dst_reg (s.reg src_reg1 + sign_extend (instr &&& 0x1F) 5)
    else
      setReg s dst_reg (s.reg src_reg1 + s.reg (instr &&& 0x7))
  update_flags s1 dst_reg

/-- The C `op_and` (lines 187..204): register or immediate form of AND,
then `update_flags` on the destination. -/
def op_and (s : Machine) (instr : Nat) : Machine :=
  let dst_reg := (instr >>> 9) &&& 0x7
  let src_reg1 := (instr >>> 6) &&& 0x7
  let s1 :=
    if (instr >>> 5) &&& 0x1 = 1 then
      setReg s dst_reg (s.reg src_reg1 &&& sign_extend (instr &&& 0x1F) 5)
    else
      setReg s dst_reg (s.reg src_reg1 &&& s.reg (instr &&& 0x7))
  update_flags s1 dst_reg

/-- The C `op_not` (lines 207..214): `reg[dst] = ~reg[src]` (bitwise
complement of a 16-bit value), then `update_flags`. -/
def op_not (s : Machine) (instr : Nat) : Machine :=
  let dst_reg := (instr >>> 9) &&& 0x7
  let src_reg := (instr >>> 6) &&& 0x7
  update_flags (setReg s dst_reg (65535 - s.reg src_reg % 65536)) dst_reg

/-- The C `op_br` (lines 217..223): add the sign-extended offset to PC
when the instruction mask meets R_COND. -/
def op_br (s : Machine) (instr : Nat) : Machine :=
  let pc_offset9 := sign_extend (instr &&& 0x1FF) 9
  let cond_flag := (instr >>> 9) &&& 0x7
  if cond_flag &&& s.reg R_COND ≠ 0 then setReg s R_PC (s.reg R_PC + pc_offset9)
  else s

/-- The C `op_jmp` (lines 226..230): `PC = reg[base]`. -/
def op_jmp (s : Machine) (instr : Nat) : Machine :=
  let base_reg := (instr >>> 6) &&& 0x7
  setReg s R_PC (s.reg base_reg)

/-- The C `op_jsr` (lines 233..248): first `reg[R7] = reg[PC]`, then
either `PC += signext(off, 11)` (long form, bit 11 set) or
`PC = reg[base]` (register form), the base register being read after
R7 was overwritten. -/
def op_jsr (s : Machine) (instr : Nat) : Machine :=
  let s1 := setReg s R_R7 (s.reg R_PC)
  if (instr >>> 11) &&& 0x1 = 1 then
    setReg s1 R_PC (s1.reg R_PC + sign_extend (instr &&& 0x7FF) 11)
  else
    setReg s1 R_PC (s1.reg ((instr >>> 6) &&& 0x7))

/-- The C `op_ld` (lines 251..258): `reg[dst] = mem_read(PC + off9)`,
then `update_flags`. -/
def op_ld (s : Machine) (instr : Nat) : Machine :=
  let dst_reg := (instr >>> 9) &&& 0x7
  let p := mem_read s (s.reg R_PC + sign_extend (instr &&& 0x1FF) 9)
  update_flags (setReg p.2 dst_reg p.1) dst_reg

/-- The C `op_ldi` (lines 261..269): two chained `mem_read` calls, the
first at `PC + off9` producing the pointer, the second at that pointer
producing the value, then `update_flags`. -/
def op_ldi (s : Machine) (instr : Nat) : Machine :=
  let dst_reg := (instr >>> 9) &&& 0x7
  let p := mem_read s (s.reg R_PC + sign_extend (instr &&& 0x1FF) 9)
  let q := mem_read p.2 p.1
  update_flags (setReg q.2 dst_reg q.1) dst_reg

/-- The C `op_ldr` (lines 272..280): `reg[dst] = mem_read(base + off6)`,
then `update_flags`. -/
def op_ldr (s : Machine) (instr : Nat) : Machine :=
  let dst_reg := (instr >>> 9) &&& 0x7
  let base_reg := (instr >>> 6) &&& 0x7
  let p := mem_read s (s.reg base_reg + sign_extend (instr &&& 0x3F) 6)
  update_flags (setReg p.2 dst_reg p.1) dst_reg

/-- The C `op_lea` (lines 283..290): `reg[dst] = PC + off9`, then
`update_flags` on the destination. -/
def op_lea (s : Machine) (instr : Nat) : Machine :=
  let dst_reg := (instr >>> 9) &&& 0x7
  update_flags (setReg s dst_reg (s.reg R_PC + sign_extend (instr &&& 0x1FF) 9)) dst_reg

/-- The C `op_st` (lines 293..300): `mem_write(PC + off9, reg[src])`. -/
def op_st (s : Machine) (instr : Nat) : Machine :=
  let src_reg := (instr >>> 9) &&& 0x7
  mem_write s (s.reg R_PC + sign_extend (instr &&& 0x1FF) 9) (s.reg src_reg)

/-- The C `op_sti` (lines 303..310): read the pointer through
`mem_read`, then `mem_write` the source register there. -/
def op_sti (s : Machine) (instr : Nat) : Machine :=
  let src_reg := (instr >>> 9) &&& 0x7
  let p := mem_read s (s.reg R_PC + sign_extend (instr &&& 0x1FF) 9)
  mem_write p.2 p.1 (p.2.reg src_reg)

/-- The C `op_str` (lines 313..321): `mem_write(base + off6, reg[src])`. -/
def op_str (s : Machine) (instr : Nat) : Machine :=
  let src_reg := (instr >>> 9) &&& 0x7
  let base_reg := (instr >>> 6) &&& 0x7
  mem_write s (s.reg base_reg + sign_extend (instr &&& 0x3F) 6) (s.reg src_reg)

/-- The C `trap_getc` (lines 326..329): `reg[R0] = getchar()`. -/
def trap_getc (s : Machine) : Machine :=
  let g := getchar s
  setReg g.2 R_R0 g.1

/-- The C `trap_out` (lines 332..336): write the low byte of R0 (the
`char` cast) to stdout and flush. -/
def trap_out (s : Machine) : Machine :=
  { s with output := s.output ++ [s.reg R_R0 % 256] }

/-- Characters emitted by the PUTS loop (lines 343..347): starting at
cell `p`, one low byte per word until a zero word.  The C loop walks a
raw pointer with no bound; the fuel caps the scan at the memory size
(beyond it the C pointer has left the array). -/
def puts_chars (m : Nat → Nat) (p : Nat) : Nat → List Nat
  | 0 => []
  | fuel + 1 =>
    if m p = 0 then []
    else m p % 256 :: puts_chars m (p + 1) fuel

/-- The C `trap_puts` (lines 339..349): scan memory from `memory +
reg[R0]` by direct array access (not `mem_read`), emitting one byte per
word until a zero word, then flush. -/
def trap_puts (s : Machine) : Machine :=
  { s with output := s.output ++ puts_chars s.mem (s.reg R_R0) 65536 }

/-- The C `trap_in` prompt bytes: the text of the line printed by
`printf` at line 354, followed by the newline. -/
def in_prompt : List Nat :=
  [69, 110, 116, 101, 114, 32, 97, 32, 99, 104, 97, 114, 97, 99, 116, 101, 114, 58, 10]

/-- The C `(uint16_t)(char)b` conversion for a byte `b`: `char` is
signed on the build platform, so bytes at or above 128 sign-extend. -/
def char_to_u16 (b : Nat) : Nat :=
  if b % 256 < 128 then b % 256 else 65280 + b % 256

/-- The C `trap_in` (lines 352..359): print the prompt, read one
character, echo it, and store its `char` value (cast to `uint16_t`)
into R0. -/
def trap_in (s : Machine) : Machine :=
  let g := getchar { s with output := s.output ++ in_prompt }
  setReg { g.2 with output := g.2.output ++ [g.1 % 256] } R_R0 (char_to_u16 g.1)

/-- Characters emitted by the PUTSP loop (lines 366..375): for each
non-zero word, the low byte, then the high byte when it is non-zero as
a `char`.  Fuel bounds the scan as in `puts_chars`. -/
def putsp_chars (m : Nat → Nat) (p : Nat) : Nat → List Nat
  | 0 => []
  | fuel + 1 =>
    if m p = 0 then []
    else
      (m p % 256 ::
        (if (m p >>> 8) % 256 ≠ 0 then [(m p >>> 8) % 256] else [])) ++
        putsp_chars m (p + 1) fuel

/-- The C `trap_putsp` (lines 362..377): scan memory from `memory +
reg[R0]` by direct array access (not `mem_read`), emitting one or two
bytes per word until a zero word, then flush. -/
def trap_putsp (s : Machine) : Machine :=
  { s with output := s.output ++ putsp_chars s.mem (s.reg R_R0) 65536 }

/-- Bytes of the halt message: `puts("HATL")` (line 381) writes the
four letters and a newline. -/
def halt_message : List Nat := [72, 65, 84, 76, 10]

/-- The C `trap_halt` (lines 379..384): print the halt message, flush,
and clear the running flag. -/
def trap_halt (s : Machine) : Machine :=
  { s with output := s.output ++ halt_message, running := false }

/-- The C `op_trap` (lines 387..412): dispatch on the low 8 bits of the
instruction to the six trap routines; any other vector falls through
the `default:` case and does nothing. -/
def op_trap (s : Machine) (instr : Nat) : Machine :=
  if instr &&& 0xFF = 0x20 then trap_getc s
  else if instr &&& 0xFF = 0x21 then trap_out s
  else if instr &&& 0xFF = 0x22 then trap_puts s
  else if instr &&& 0xFF = 0x23 then trap_in s
  else if instr &&& 0xFF = 0x24 then trap_putsp s
  else if instr &&& 0xFF = 0x25 then trap_halt s
  else s

/-- The C `swap16` (lines 417..420): `(x << 8) | (x >> 8)` on a 16-bit
value, truncated to 16 bits by the return type. -/
def swap16 (x : Nat) : Nat :=
  (((x % 65536) <<< 8) ||| ((x % 65536) >>> 8)) % 65536

/-- Effect of the byte-swapping loop of `read_image_file` (lines
434..438) on memory: store `swap16` of each raw file word at
consecutive cells starting at `a`.  The C pointer walk does not wrap. -/
def store_swapped (m : Nat → Nat) (a : Nat) : List Nat → (Nat → Nat)
  | [] => m
  | w :: ws => store_swapped (fun x => if x = a then swap16 w else m x) (a + 1) ws

/-- The C `read_image_file` (lines 422..439), with the file modelled as
the list of raw 16-bit words `fread` delivers: the first word,
byte-swapped, is the origin; at most `UINT16_MAX - origin` further
words are read and placed, byte-swapped, at `memory[origin..]`.  An
empty file leaves memory unchanged (the C reads an uninitialized
origin and no data). -/
def read_image_file (s : Machine) (file : List Nat) : Machine :=
  match file with
  | [] => s
  | w :: rest =>
    let origin := swap16 w
    let max_read := 65535 - origin
    { s with mem := store_swapped s.mem origin (rest.take max_read) }

/-- The condition-flag value `update_flags` computes from a register
value: FL_ZRO on zero, FL_NEG when bit 15 is set, FL_POS otherwise. -/
def flag_of (v : Nat) : Nat :=
  if v = 0 then FL_ZRO
  else if v >>> 15 ≠ 0 then FL_NEG
  else FL_POS

/-- The condition-flag postcondition for a flag-setting instruction
with destination register `dst`: R_COND equals FL_NEG exactly when bit
15 of the destination's final value is 1, equals FL_ZRO exactly when
that value is 0, and always holds exactly one of the three one-hot
flag values. -/
def FlagsOk (t : Machine) (dst : Nat) : Prop :=
  (t.reg R_COND = FL_NEG ↔ t.reg dst >>> 15 = 1) ∧
  (t.reg R_COND = FL_ZRO ↔ t.reg dst = 0) ∧
  (t.reg R_COND = FL_POS ∨ t.reg R_COND = FL_ZRO ∨ t.reg R_COND = FL_NEG)

/-- An all-zero machine with no pending input, used as a concrete test
state. -/
def zeroM : Machine :=
  { reg := fun _ => 0, mem := fun _ => 0, input := [], output := [], running := true }

/-- Concrete machine whose condition register holds FL_POS, used to
observe a flag change. -/
def posFlagM : Machine :=
  { reg := fun r => if r = R_COND then FL_POS else 0, mem := fun _ => 0,
    input := [], output := [], running := true }

/-- Concrete machine with PC = 0x3000 and R7 = 0x1111, used to exercise
JSR/JSRR. -/
def jsrM : Machine :=
  { reg := fun r => if r = R_PC then 0x3000 else if r = R_R7 then 0x1111 else 0,
    mem := fun _ => 0, input := [], output := [], running := true }

/-- Concrete machine with PC = 0xFE00, the cell at 0x8000 holding
0x1234, and one pending keyboard byte, used to exercise LDI through the
keyboard status register. -/
def ldiM : Machine :=
  { reg := fun r => if r = R_PC then 0xFE00 else 0,
    mem := fun a => if a = 0x8000 then 0x1234 else 0,
    input := [97], output := [], running := true }

/-- Reading the register just stored by `setReg` gives the stored value
truncated to 16 bits. -/
lemma setReg_reg_self (s : Machine) (r v : Nat) : (setReg s r v).reg r = v % 65536 := by
  simp [setReg]

/-- `setReg` leaves every other register unchanged. -/
lemma setReg_reg_ne (s : Machine) (r v x : Nat) (h : x ≠ r) :
    (setReg s r v).reg x = s.reg x := by
  simp [setReg, h]

/-- A register just stored by `setReg` holds a 16-bit value. -/
lemma setReg_reg_lt (s : Machine) (r v : Nat) : (setReg s r v).reg r < 65536 := by
  rw [setReg_reg_self]
  exact Nat.mod_lt _ (by norm_num)

/-- `update_flags` writes only R_COND. -/
lemma update_flags_reg_ne (s : Machine) (ri x : Nat) (h : x ≠ R_COND) :
    (update_flags s ri).reg x = s.reg x := by
  unfold update_flags
  split_ifs <;> exact setReg_reg_ne _ _ _ _ h

/-- `update_flags` sets R_COND to `flag_of` of the inspected register's
value. -/
lemma update_flags_cond (s : Machine) (ri : Nat) :
    (update_flags s ri).reg R_COND = flag_of (s.reg ri) := by
  unfold update_flags flag_of
  split_ifs <;> rw [setReg_reg_self] <;> rfl

/-- A 16-bit value shifted right by 15 is 0 or 1. -/
lemma shiftRight15_lt (v : Nat) (hv : v < 65536) : v >>> 15 < 2 := by
  have h : v >>> 15 = v / 32768 := by
    rw [Nat.shiftRight_eq_div_pow]
  rw [h]
  omega

/-- Characterization of `flag_of` on 16-bit values: NEG exactly when
bit 15 is set, ZRO exactly when zero, and always one of the three
one-hot flag values. -/
lemma flag_of_char (v : Nat) (hv : v < 65536) :
    (flag_of v = FL_NEG ↔ v >>> 15 = 1) ∧
    (flag_of v = FL_ZRO ↔ v = 0) ∧
    (flag_of v = FL_POS ∨ flag_of v = FL_ZRO ∨ flag_of v = FL_NEG) := by
  have h2 := shiftRight15_lt v hv
  unfold flag_of FL_POS FL_ZRO FL_NEG
  split_ifs with h0 h15
  · subst h0
    decide
  · have h1 : v >>> 15 = 1 := by omega
    simp [h0, h1]
  · have h3 : v >>> 15 = 0 := by omega
    simp [h0, h3]

/-- A destination-register field extracted as `(i >>> 9) &&& 0x7` never
names R_COND. -/
lemma dst_ne_cond (i : Nat) : (i >>> 9) &&& 0x7 ≠ R_COND := by
  have h : (i >>> 9) &&& 0x7 ≤ 0x7 := Nat.and_le_right
  unfold R_COND
  omega

/-- After `update_flags` on a freshly written destination register, the
flag postcondition `FlagsOk` holds. -/
lemma flagsOk_update (s : Machine) (dst : Nat) (hd : dst ≠ R_COND)
    (hv : s.reg dst < 65536) : FlagsOk (update_flags s dst) dst := by
  unfold FlagsOk
  rw [update_flags_cond, update_flags_reg_ne _ _ _ hd]
  exact flag_of_char _ hv

/-- After `update_flags`, R_COND is `flag_of` of the destination's
final value (the destination itself is untouched). -/
lemma update_flags_cond_dst (s : Machine) (dst : Nat) (hd : dst ≠ R_COND) :
    (update_flags s dst).reg R_COND = flag_of ((update_flags s dst).reg dst) := by
  rw [update_flags_cond, update_flags_reg_ne _ _ _ hd]

/-- C5: every flag-setting instruction (ADD, AND, NOT, LD, LDI, LDR)
leaves R_COND holding exactly one of the three one-hot flag values,
determined by the destination register's final value: FL_NEG exactly
when its bit 15 is 1, FL_ZRO exactly when it is 0, FL_POS otherwise;
hence the one-hot property is re-established by every subsequent
flag-setting instruction. -/
theorem flag_setting_ops_one_hot (s : Machine) (i : Nat) :
    FlagsOk (op_add s i) ((i >>> 9) &&& 0x7) ∧
    FlagsOk (op_and s i) ((i >>> 9) &&& 0x7) ∧
    FlagsOk (op_not s i) ((i >>> 9) &&& 0x7) ∧
    FlagsOk (op_ld s i) ((i >>> 9) &&& 0x7) ∧
    FlagsOk (op_ldi s i) ((i >>> 9) &&& 0x7) ∧
    FlagsOk (op_ldr s i) ((i >>> 9) &&& 0x7) := by
  have hd := dst_ne_cond i
  refine ⟨?_, ?_, ?_, ?_, ?_, ?_⟩
  · simp only [op_add]
    split_ifs <;> exact flagsOk_update _ _ hd (setReg_reg_lt _ _ _)
  · simp only [op_and]
    split_ifs <;> exact flagsOk_update _ _ hd (setReg_reg_lt _ _ _)
  · simp only [op_not]
    exact flagsOk_update _ _ hd (setReg_reg_lt _ _ _)
  · simp only [op_ld]
    exact flagsOk_update _ _ hd (setReg_reg_lt _ _ _)
  · simp only [op_ldi]
    exact flagsOk_update _ _ hd (setReg_reg_lt _ _ _)
  · simp only [op_ldr]
    exact flagsOk_update _ _ hd (setReg_reg_lt _ _ _)

/-- C1 (counterexample): executing LEA does change the condition
register.  On a machine with R_COND = FL_POS and PC = 0, the LEA
instruction 0xE000 computes DR = 0 and sets R_COND to FL_ZRO, so the
COND register is not unchanged. -/
theorem op_lea_changes_cond :
    posFlagM.reg R_COND = FL_POS ∧
    (op_lea posFlagM 0xE000).reg ((0xE000 >>> 9) &&& 0x7) = 0 ∧
    (op_lea posFlagM 0xE000).reg R_COND = FL_ZRO := by
  decide

/-- C1 (amended): executing LEA stores PC + signext(PCoffset9, 9) in DR
and then updates the condition flags from DR's final value (FL_ZRO,
FL_NEG or FL_POS as computed by `flag_of`); LEA behaves exactly like
the other flag-setting instructions rather than preserving R_COND. -/
theorem op_lea_sets_flags (s : Machine) (i : Nat) :
    (op_lea s i).reg ((i >>> 9) &&& 0x7) =
      (s.reg R_PC + sign_extend (i &&& 0x1FF) 9) % 65536 ∧
    (op_lea s i).reg R_COND = flag_of ((op_lea s i).reg ((i >>> 9) &&& 0x7)) := by
  have hd := dst_ne_cond i
  constructor
  · simp only [op_lea]
    rw [update_flags_reg_ne _ _ _ hd, setReg_reg_self]
  · simp only [op_lea]
    exact update_flags_cond_dst _ _ hd

/-- C2: the C memory array is declared with `UINT16_MAX` = 65,535 cells
rather than the 65,536 cells of the LC-3 address space, so the address
0xFFFF is not a valid index: an access at 0xFFFF goes out of bounds,
although 0xFFFF is a representable 16-bit address. -/
theorem memory_array_misses_top_address :
    memory_length = 65535 ∧ 0xFFFF < 65536 ∧ ¬ 0xFFFF < memory_length := by
  decide

/-- `mem_read` away from MR_KBSR returns the addressed cell and leaves
the machine untouched. -/
lemma mem_read_not_kbsr (s : Machine) (a : Nat) (h : a % 65536 ≠ MR_KBSR) :
    mem_read s a = (s.mem (a % 65536), s) := by
  simp [mem_read, h]

/-- `mem_read` at MR_KBSR with no pending byte clears KBSR and returns
0. -/
lemma mem_read_kbsr_nil (s : Machine) (a : Nat) (h : a % 65536 = MR_KBSR)
    (hin : s.input = []) :
    mem_read s a = (0, mem_write s MR_KBSR 0) := by
  simp [mem_read, h, check_key, hin, mem_write, MR_KBSR]

/-- `mem_read` at MR_KBSR with a pending byte sets KBSR to 0x8000,
stores the byte in KBDR, consumes it, and returns 0x8000. -/
lemma mem_read_kbsr_cons (s : Machine) (a b : Nat) (rest : List Nat)
    (h : a % 65536 = MR_KBSR) (hin : s.input = b :: rest) :
    mem_read s a =
      (0x8000,
       mem_write (mem_write { s with input := rest } MR_KBSR (1 <<< 15)) MR_KBDR b) := by
  simp [mem_read, h, check_key, hin, getchar, mem_write, MR_KBSR, MR_KBDR]

/-- C3: reading MR_KBSR returns 0x8000 exactly when the host has a
pending byte at the moment of the read and 0 otherwise, and when a byte
is pending the KBDR cell holds that byte (truncated to a 16-bit store)
in the state the read returns. -/
theorem mem_read_kbsr_spec (s : Machine) :
    ((mem_read s MR_KBSR).1 = 0x8000 ↔ s.input ≠ []) ∧
    ((mem_read s MR_KBSR).1 = if s.input = [] then 0 else 0x8000) ∧
    ((mem_read s MR_KBSR).2.mem MR_KBDR =
      match s.input with
      | [] => s.mem MR_KBDR
      | b :: _ => b % 65536) := by
  cases hin : s.input with
  | nil =>
    rw [mem_read_kbsr_nil s MR_KBSR (by decide) hin]
    refine ⟨by simp, by simp, ?_⟩
    simp [mem_write, MR_KBSR, MR_KBDR]
  | cons b rest =>
    rw [mem_read_kbsr_cons s MR_KBSR b rest (by decide) hin]
    refine ⟨by simp, by simp, ?_⟩
    simp [mem_write, MR_KBSR, MR_KBDR]

/-- C6: writing a word and then reading it back, with nothing in
between, returns the written word, for every address that is not
MR_KBSR and whose 16-bit reduction is a valid index of the C memory
array (`a % 65536 < memory_length`); the write consumes no keyboard
input and leaves the KBSR cell alone, and the read performs no further
mutation.  The bound excludes exactly the address 0xFFFF, where the C
`memory[address]` access is one past the 65,535-cell array: the model,
a total map, cannot express that out-of-bounds access, so the
round-trip is only a property of the code on the in-bounds range. -/
theorem write_read_roundtrip_in_bounds (s : Machine) (a w : Nat) (hw : w < 65536)
    (ha : a % 65536 ≠ MR_KBSR) (_hb : a % 65536 < memory_length) :
    (mem_read (mem_write s a w) a).1 = w ∧
    (mem_read (mem_write s a w) a).2 = mem_write s a w ∧
    (mem_write s a w).input = s.input ∧
    (mem_write s a w).mem MR_KBSR = s.mem MR_KBSR := by
  rw [mem_read_not_kbsr _ _ ha]
  refine ⟨?_, rfl, rfl, ?_⟩
  · simp [mem_write, Nat.mod_eq_of_lt hw]
  · have h2 : MR_KBSR ≠ a % 65536 := Ne.symm ha
    simp [mem_write, h2]

/-- C6 (witness): the round-trip at the in-bounds address 0x3000 with
word 42 on the all-zero machine. -/
theorem write_read_roundtrip_in_bounds_witness :
    (mem_read (mem_write zeroM 0x3000 42) 0x3000).1 = 42 ∧
    (mem_read (mem_write zeroM 0x3000 42) 0x3000).2 = mem_write zeroM 0x3000 42 ∧
    (mem_write zeroM 0x3000 42).input = zeroM.input ∧
    (mem_write zeroM 0x3000 42).mem MR_KBSR = zeroM.mem MR_KBSR :=
  write_read_roundtrip_in_bounds zeroM 0x3000 42 (by decide) (by decide) (by decide)

/-- C7: JSR/JSRR first stores the post-incremented PC (the return
address) in R7 in both forms, and only then updates PC: to
PC + signext(off, 11) in the long form, to the base register in the
register form — where the base register is read after R7 was
overwritten, so JSRR with BaseR = R7 sets PC to the old PC. -/
theorem op_jsr_spec (s : Machine) (i : Nat) (hpc : s.reg R_PC < 65536)
    (hbase : s.reg ((i >>> 6) &&& 0x7) < 65536) :
    (op_jsr s i).reg R_R7 = s.reg R_PC ∧
    (op_jsr s i).reg R_PC =
      (if (i >>> 11) &&& 0x1 = 1 then
        (s.reg R_PC + sign_extend (i &&& 0x7FF) 11) % 65536
      else if (i >>> 6) &&& 0x7 = R_R7 then s.reg R_PC
      else s.reg ((i >>> 6) &&& 0x7)) := by
  constructor
  · simp only [op_jsr]
    split_ifs <;>
      rw [setReg_reg_ne _ _ _ _ (by decide : R_R7 ≠ R_PC), setReg_reg_self,
        Nat.mod_eq_of_lt hpc]
  · simp only [op_jsr]
    split_ifs with hl hb
    · rw [setReg_reg_self, setReg_reg_ne _ _ _ _ (by decide : R_PC ≠ R_R7)]
    · rw [setReg_reg_self, hb, setReg_reg_self]
      omega
    · rw [setReg_reg_self, setReg_reg_ne _ _ _ _ hb, Nat.mod_eq_of_lt hbase]

/-- C7 (witness): JSRR with BaseR = R7 on a machine with PC = 0x3000
and R7 = 0x1111. -/
theorem op_jsr_spec_witness :
    (op_jsr jsrM 0x41C0).reg R_R7 = jsrM.reg R_PC ∧
    (op_jsr jsrM 0x41C0).reg R_PC =
      (if (0x41C0 >>> 11) &&& 0x1 = 1 then
        (jsrM.reg R_PC + sign_extend (0x41C0 &&& 0x7FF) 11) % 65536
      else if (0x41C0 >>> 6) &&& 0x7 = R_R7 then jsrM.reg R_PC
      else jsrM.reg ((0x41C0 >>> 6) &&& 0x7)) :=
  op_jsr_spec jsrM 0x41C0 (by decide) (by decide)

/-- C8: when the effective address PC + signext(off, 9) of an LDI is
MR_KBSR, the first device-aware read returns the freshly updated
keyboard status (0x8000 when a byte is pending, 0 otherwise), that
status is the pointer of the second device-aware read, so DR receives
the cell at 0x8000 (pending) or at 0 (not pending), and the condition
flags are then set from DR's final value. -/
theorem op_ldi_kbsr_indirect (s : Machine) (i : Nat)
    (h : (s.reg R_PC + sign_extend (i &&& 0x1FF) 9) % 65536 = MR_KBSR) :
    ((mem_read s (s.reg R_PC + sign_extend (i &&& 0x1FF) 9)).1 =
      if s.input = [] then 0 else 0x8000) ∧
    ((op_ldi s i).reg ((i >>> 9) &&& 0x7) =
      match s.input with
      | [] => s.mem 0 % 65536
      | _ :: _ => s.mem 0x8000 % 65536) ∧
    (op_ldi s i).reg R_COND = flag_of ((op_ldi s i).reg ((i >>> 9) &&& 0x7)) := by
  have hd := dst_ne_cond i
  have hflag : (op_ldi s i).reg R_COND =
      flag_of ((op_ldi s i).reg ((i >>> 9) &&& 0x7)) := by
    simp only [op_ldi]
    exact update_flags_cond_dst _ _ hd
  cases hin : s.input with
  | nil =>
    have h1 := mem_read_kbsr_nil s _ h hin
    refine ⟨by simp [h1], ?_, hflag⟩
    simp only [op_ldi, h1]
    rw [mem_read_not_kbsr _ 0 (by decide)]
    rw [update_flags_reg_ne _ _ _ hd, setReg_reg_self]
    simp [mem_write, MR_KBSR]
  | cons b rest =>
    have h1 := mem_read_kbsr_cons s _ b rest h hin
    refine ⟨by simp [h1], ?_, hflag⟩
    simp only [op_ldi, h1]
    rw [mem_read_not_kbsr _ 0x8000 (by decide)]
    rw [update_flags_reg_ne _ _ _ hd, setReg_reg_self]
    simp [mem_write, MR_KBSR, MR_KBDR]

/-- C8 (witness): LDI with effective address MR_KBSR on a machine with
PC = 0xFE00, one pending byte, and 0x1234 stored at 0x8000. -/
theorem op_ldi_kbsr_indirect_witness :
    ((mem_read ldiM (ldiM.reg R_PC + sign_extend (0xA000 &&& 0x1FF) 9)).1 =
      if ldiM.input = [] then 0 else 0x8000) ∧
    ((op_ldi ldiM 0xA000).reg ((0xA000 >>> 9) &&& 0x7) =
      match ldiM.input with
      | [] => ldiM.mem 0 % 65536
      | _ :: _ => ldiM.mem 0x8000 % 65536) ∧
    (op_ldi ldiM 0xA000).reg R_COND =
      flag_of ((op_ldi ldiM 0xA000).reg ((0xA000 >>> 9) &&& 0x7)) :=
  op_ldi_kbsr_indirect ldiM 0xA000 (by decide)

/-- C9: a TRAP instruction whose low 8 bits name no vector in
0x20..0x25 falls through the dispatch and changes nothing: the whole
machine state (registers, memory, input, output, running flag) is
returned untouched. -/
theorem op_trap_unknown_noop (s : Machine) (i : Nat)
    (h : ¬ (0x20 ≤ i &&& 0xFF ∧ i &&& 0xFF ≤ 0x25)) :
    op_trap s i = s := by
  have h1 : i &&& 0xFF ≠ 0x20 := by omega
  have h2 : i &&& 0xFF ≠ 0x21 := by omega
  have h3 : i &&& 0xFF ≠ 0x22 := by omega
  have h4 : i &&& 0xFF ≠ 0x23 := by omega
  have h5 : i &&& 0xFF ≠ 0x24 := by omega
  have h6 : i &&& 0xFF ≠ 0x25 := by omega
  simp [op_trap, h1, h2, h3, h4, h5, h6]

/-- C9 (witness): trap vector 0x00 on the all-zero machine is a
no-op. -/
theorem op_trap_unknown_noop_witness : op_trap zeroM 0xF000 = zeroM :=
  op_trap_unknown_noop zeroM 0xF000 (by decide)

/-- C10: PUTS and PUTSP scan the string by direct array access, so they
change no memory cell (in particular neither KBSR nor KBDR), consume no
keyboard input, and touch no register, whatever range of cells the scan
covers. -/
theorem trap_puts_putsp_frame (s : Machine) :
    (trap_puts s).mem = s.mem ∧ (trap_puts s).input = s.input ∧
    (trap_puts s).reg = s.reg ∧
    (trap_puts s).mem MR_KBSR = s.mem MR_KBSR ∧
    (trap_puts s).mem MR_KBDR = s.mem MR_KBDR ∧
    (trap_putsp s).mem = s.mem ∧ (trap_putsp s).input = s.input ∧
    (trap_putsp s).reg = s.reg ∧
    (trap_putsp s).mem MR_KBSR = s.mem MR_KBSR ∧
    (trap_putsp s).mem MR_KBDR = s.mem MR_KBDR :=
  ⟨rfl, rfl, rfl, rfl, rfl, rfl, rfl, rfl, rfl, rfl⟩

/-- `store_swapped` leaves every cell outside the written range
[a, a + length) unchanged. -/
lemma store_swapped_out (l : List Nat) (m : Nat → Nat) (a x : Nat)
    (hx : x < a ∨ a + l.length ≤ x) :
    store_swapped m a l x = m x := by
  induction l generalizing m a with
  | nil => rfl
  | cons w ws ih =>
    have hx1 : x < a + 1 ∨ (a + 1) + ws.length ≤ x := by
      rcases hx with hlt | hge
      · exact Or.inl (by omega)
      · simp only [List.length_cons] at hge
        exact Or.inr (by omega)
    have hxa : x ≠ a := by
      rcases hx with hlt | hge
      · omega
      · simp only [List.length_cons] at hge
        omega
    simp only [store_swapped]
    rw [ih _ _ hx1]
    simp [hxa]

/-- C4: the loader never writes the cell at address 0xFFFF.  It reads
at most `UINT16_MAX - origin` = 65535 - origin data words, so the last
cell it can fill is mem[0xFFFE]; a file longer than that is truncated
one cell short of the claimed 0xFFFF. -/
theorem read_image_file_never_writes_top (s : Machine) (file : List Nat) :
    (read_image_file s file).mem 0xFFFF = s.mem 0xFFFF := by
  cases file with
  | nil => rfl
  | cons w rest =>
    simp only [read_image_file]
    apply store_swapped_out
    right
    have h1 : swap16 w < 65536 := Nat.mod_lt _ (by norm_num)
    have h2 : (rest.take (65535 - swap16 w)).length ≤ 65535 - swap16 w := by
      simp [List.length_take]
    omega
